import Mathlib

/-!
Verification of the PineScript-Builder ingestion pipeline against its
natural-language specification.

The Python sources under `src/` are shallowly embedded as executable Lean
definitions: pure functions become Lean functions, file-system and network
effects become explicit state passing (an association-list store, oracles for
fetch outcomes and timestamp suffixes), and exceptions become `Except` /
paired error results.  The SHA-256 hash is treated as an uninterpreted
function parameter, since none of the verified properties depend on its
definition.  All definitions come first, then the theorems.
-/

namespace PineIngest

/-! # Definitions -/

/-! ## Drift detector (`src/tradingview_ingest/rendered_reference.py`) -/

/-- `drift_severity` from `rendered_reference.py` (lines 289-296). -/
def drift_severity (anchor_count_delta : Int) (env_delta : Bool) : String :=
  if anchor_count_delta = 0 ∧ env_delta = false then "none"
  else if anchor_count_delta ≠ 0 then
    (if 10 ≤ |anchor_count_delta| then "high" else "medium")
  else "low"

/-- `drift_recommended_action` from `rendered_reference.py` (lines 299-306). -/
def drift_recommended_action (severity : String) : String :=
  if severity = "none" then "ignore"
  else if severity = "low" then "manual_review"
  else if severity = "medium" then "resegment"
  else "block_pipeline"

/-! ## Anchor collection and per-kind counts
(`render_reference` JS collector and `anchor_prefix_counts`) -/

/-- The fixed list of semantic anchor-id markers, `ANCHOR_PREFIXES` in
`rendered_reference.py` (lines 16-24). -/
def ANCHOR_PREFIXES : List String :=
  ["var_", "fun_", "const_", "type_", "kw_", "op_", "an_"]

/-- Python `str.startswith`, over the character list (kernel-reducible). -/
def strStartsWith (s pre : String) : Bool :=
  pre.data.isPrefixOf s.data

/-- Python `str.endswith`, over the character list (kernel-reducible). -/
def strEndsWith (s suf : String) : Bool :=
  suf.data.reverse.isPrefixOf s.data.reverse

/-- Whether an id starts with one of the semantic markers. -/
def matchesAnchorKind (s : String) : Bool :=
  ANCHOR_PREFIXES.any (fun p => strStartsWith s p)

/-- The JS collector evaluated by `render_reference` (lines 98-118): keep every
DOM id that is non-empty, is not `tv-content`, and starts with one of the
semantic markers, in document order. -/
def collectAnchorIds (domIds : List String) : List String :=
  domIds.filter (fun s => s != "" && s != "tv-content" && matchesAnchorKind s)

/-- One step of the inner loop of `anchor_prefix_counts`: increment the counter
of the first marker the id starts with (the Python loop `break`s after the
first match), leaving the table unchanged when none matches. -/
def bumpFirstMatch : List (String × Nat) → String → List (String × Nat)
  | [], _ => []
  | (p, n) :: rest, s =>
    if strStartsWith s p then (p, n + 1) :: rest else (p, n) :: bumpFirstMatch rest s

/-- `anchor_prefix_counts` from `rendered_reference.py` (lines 66-73). -/
def anchor_prefix_counts (anchor_ids : List String) : List (String × Nat) :=
  anchor_ids.foldl bumpFirstMatch (ANCHOR_PREFIXES.map (fun p => (p, 0)))

/-- Sum of the values of a counts table. -/
def countsTotal (counts : List (String × Nat)) : Nat :=
  (counts.map Prod.snd).sum

/-! ## Rendering stabilizer outcome (`render_reference`, lines 91-162)

The polling loop is embedded as a function of the trace of anchor counts
observed at the successive polls.  The trace lists exactly the polls that
occur before the wall clock passes `max_wait_seconds`: if the
threshold-and-stability condition is never met during the trace, the timeout
check after the last poll fires, setting `notes = "render_timeout"`
(line 137) and leaving the loop. -/

/-- The `while True` loop of `render_reference`: starting from
`previous_count = -1` and `stable_count = 0`, each poll updates the stability
counter (reset to zero on change, lines 120-123), breaks with empty notes when
`current_count >= anchor_min_threshold and stable_count >= stabilize_checks`
(line 126), and otherwise breaks with notes `"render_timeout"` once the time
budget is exhausted (modelled as the end of the trace).  Returns the final
`(current_count, stable_count, notes)`. -/
def renderLoop (threshold checks : Nat) : Int → Nat → Nat → List Nat → Nat × Nat × String
  | prev, stable, c, [] =>
    if threshold ≤ c ∧ checks ≤ (if (c : Int) = prev then stable + 1 else 0) then
      (c, (if (c : Int) = prev then stable + 1 else 0), "")
    else (c, (if (c : Int) = prev then stable + 1 else 0), "render_timeout")
  | prev, stable, c, c' :: rest' =>
    if threshold ≤ c ∧ checks ≤ (if (c : Int) = prev then stable + 1 else 0) then
      (c, (if (c : Int) = prev then stable + 1 else 0), "")
    else renderLoop threshold checks c (if (c : Int) = prev then stable + 1 else 0) c' rest'

/-- Status classification after the loop (lines 148-153): the code first sets
`complete`/`partial` from the final count and stability counter and then
overrides the status to `failed` whenever `notes` is non-empty; this is that
composite mapping. -/
def statusOf (threshold checks count stable : Nat) (notes : String) : String :=
  if notes ≠ "" then "failed"
  else if threshold ≤ count ∧ checks ≤ stable then "complete"
  else "partial"

/-- The `(status, notes)` pair of the `RenderResult` produced by
`render_reference` on a poll trace `first :: rest` (the loop body always runs
at least once). -/
def renderStatus (threshold checks first : Nat) (rest : List Nat) : String × String :=
  (statusOf threshold checks
      (renderLoop threshold checks (-1) 0 first rest).1
      (renderLoop threshold checks (-1) 0 first rest).2.1
      (renderLoop threshold checks (-1) 0 first rest).2.2,
   (renderLoop threshold checks (-1) 0 first rest).2.2)

/-! ## Content identity: URL canonicalization (`discovery.py`, lines 87-98) -/

/-- The six components produced by Python `urllib.parse.urlparse`.
`canonicalize_url` receives its input already split into these components; the
parser itself is Python standard library and is the interface boundary of the
embedding. -/
structure ParsedUrl where
  scheme : String
  netloc : String
  path : String
  params : String
  query : String
  fragment : String

/-- Python `path.rstrip("/")`: remove every trailing slash. -/
def rstripSlashes (p : String) : String :=
  String.mk ((p.data.reverse.dropWhile (fun ch => ch = '/')).reverse)

/-- Python `urllib.parse.urlunparse` specialized to the call in
`canonicalize_url`: params, query and fragment are passed as empty strings
(dropping the input's own), and the netloc argument is never empty, so the
result is `scheme + "://" + netloc + path`, with a `/` inserted when the path
is non-empty and does not already start with one. -/
def urlunparseSimple (scheme netloc path : String) : String :=
  scheme ++ "://" ++ netloc ++
    (if path ≠ "" ∧ ¬ strStartsWith path "/" then "/" ++ path else path)

/-- `canonicalize_url` from `discovery.py` (lines 87-98). -/
def canonicalize_url (parsed : ParsedUrl) : Option String :=
  if parsed.scheme = "" ∧ parsed.netloc = "" then none
  else
    let netloc0 := if parsed.netloc = "" then "www.tradingview.com" else parsed.netloc
    let netloc1 := if netloc0 = "tradingview.com" then "www.tradingview.com" else netloc0
    let path0 := if parsed.path = "" then "/" else parsed.path
    let path1 := if path0 ≠ "/" ∧ strEndsWith path0 "/" then rstripSlashes path0 else path0
    some (urlunparseSimple "https" netloc1 path1)

/-- Host rule in the words of the spec: an absent host defaults to
`www.tradingview.com`, and the bare `tradingview.com` is folded into the `www`
form; any other host is kept. -/
def claimHost (netloc : String) : String :=
  if netloc = "" then "www.tradingview.com"
  else if netloc = "tradingview.com" then "www.tradingview.com"
  else netloc

/-- Path rule in the words of the spec: trailing slash stripped unless the
path is exactly `/` (an absent path is the root path). -/
def claimPath (path : String) : String :=
  if path = "" then "/"
  else if path = "/" then "/"
  else if strEndsWith path "/" then rstripSlashes path
  else path

/-- The canonical form the spec describes: scheme `https`, folded host,
slash-stripped path, query and fragment removed (the right-hand side depends
on neither `query`, `fragment` nor `params`). -/
def claimCanonicalForm (p : ParsedUrl) : String :=
  urlunparseSimple "https" (claimHost p.netloc) (claimPath p.path)

/-- A concrete parsed URL used to witness the canonicalization theorem. -/
def exampleParsedUrl : ParsedUrl :=
  { scheme := "http", netloc := "tradingview.com", path := "/pine-script-docs/",
    params := "", query := "a=1", fragment := "top" }

/-! ## Anchor-based segmentation of the rendered reference page
(`rendered_reference.py`, lines 178-282, and the QC gate of
`scripts/ingest_reference_v6_rendered.py`, lines 188-257) -/

/-- Python `str.strip()`: drop leading and trailing whitespace. -/
def pyStrip (s : String) : String :=
  String.mk (((s.data.dropWhile Char.isWhitespace).reverse.dropWhile Char.isWhitespace).reverse)

/-- Python `prefix.rstrip("_")` as used by the symbol-type fallback. -/
def rstripUnderscores (p : String) : String :=
  String.mk ((p.data.reverse.dropWhile (fun ch => ch = '_')).reverse)

/-- One top-level node of the reference content container.  The BeautifulSoup
tree is abstracted to exactly the observations the segmentation code makes of
a node: its `id` attribute (`none` when absent), the stripped texts of its
nested `h1`-`h4` headings in order, its own stripped text, the stripped texts
of its descendants whose class contains `type`/`kind`/`category`, and its
`str(...)` serialization.  Anchors and the sibling content between them are
the container's direct children, as on the rendered reference page. -/
structure HtmlNode where
  idAttr : Option String
  headingTexts : List String
  ownText : String
  classHintTexts : List String
  html : String
deriving DecidableEq

/-- `find_anchor_elements` filter (`rendered_reference.py`, lines 178-188):
an element with an id attribute, not `tv-content`, starting with one of the
semantic markers. -/
def isRefAnchor (n : HtmlNode) : Bool :=
  match n.idAttr with
  | some s => s != "tv-content" && matchesAnchorKind s
  | none => false

/-- The sibling-walk break condition of `segment_reference_html` (line 248):
a sibling carrying a non-empty id that starts with one of the semantic
markers ends the current segment. -/
def breaksRefSegment (n : HtmlNode) : Bool :=
  match n.idAttr with
  | some s => s != "" && matchesAnchorKind s
  | none => false

/-- `serialize_nodes` (lines 191-192): concatenate the serializations and
strip surrounding whitespace. -/
def serialize_nodes (nodes : List HtmlNode) : String :=
  pyStrip (String.join (nodes.map (fun n => n.html)))

/-- `infer_symbol_name` (lines 195-200): the first non-empty nested heading
text, falling back to the anchor's own text. -/
def infer_symbol_name (anchor : HtmlNode) : String :=
  match anchor.headingTexts.find? (fun t => t != "") with
  | some t => t
  | none => anchor.ownText

/-- `infer_symbol_type` (lines 203-217): the first non-empty text of a
descendant with a `type`/`kind`/`category` class hint, else the first
matching semantic marker with its underscore stripped, else `unknown`. -/
def infer_symbol_type (anchor : HtmlNode) (anchor_id : String) : String :=
  match anchor.classHintTexts.find? (fun t => t != "") with
  | some t => t
  | none =>
    match ANCHOR_PREFIXES.find? (fun p => strStartsWith anchor_id p) with
    | some p => rstripUnderscores p
    | none => "unknown"

/-- One segment record of the rendered-reference pipeline
(`segment_reference_html`, lines 261-275). -/
structure RefSegment where
  canonical_url : String
  doc_type : String
  pine_version : String
  run_id : String
  source_artifact_id : String
  anchor_id : String
  symbol_type : String
  symbol_name : String
  segment_order : Nat
  raw_html : String
  segment_id : String
deriving DecidableEq

/-- The QC counters returned by `segment_reference_html` (lines 277-281). -/
structure QC where
  segment_count : Nat
  empty_symbol_names : Nat
  empty_raw_html : Nat
deriving DecidableEq

/-- Pair every anchor of the container with the list of its following
siblings (the `next_siblings` the Python loop walks). -/
def anchorsWithTails : List HtmlNode → List (HtmlNode × List HtmlNode)
  | [] => []
  | n :: rest =>
    if isRefAnchor n then (n, rest) :: anchorsWithTails rest
    else anchorsWithTails rest

/-- The per-anchor loop of `segment_reference_html` (lines 235-275):
duplicate-id check against `seen`, sibling walk up to the next semantic
anchor, serialization, QC counter updates, segment construction. -/
def segRefGo (cu rid said : String) :
    List (HtmlNode × List HtmlNode) → Nat → List String → List RefSegment → Nat → Nat →
      Except String (List RefSegment × QC)
  | [], _, _, acc, en, er =>
    .ok (acc.reverse,
      { segment_count := acc.length, empty_symbol_names := en, empty_raw_html := er })
  | (anchor, tail) :: rest, idx, seen, acc, en, er =>
    let anchor_id := anchor.idAttr.getD ""
    if seen.contains anchor_id then .error "duplicate_anchor_id"
    else
      let nodes := anchor :: tail.takeWhile (fun sib => ! breaksRefSegment sib)
      let raw_html := serialize_nodes nodes
      let er' := if raw_html = "" then er + 1 else er
      let symbol_name := infer_symbol_name anchor
      let en' := if symbol_name = "" then en + 1 else en
      let seg : RefSegment :=
        { canonical_url := cu, doc_type := "reference", pine_version := "v6",
          run_id := rid, source_artifact_id := said, anchor_id := anchor_id,
          symbol_type := infer_symbol_type anchor anchor_id,
          symbol_name := symbol_name, segment_order := idx, raw_html := raw_html,
          segment_id := said ++ ":" ++ anchor_id }
      segRefGo cu rid said rest (idx + 1) (anchor_id :: seen) (seg :: acc) en' er'

/-- `segment_reference_html` (lines 220-282).  The container argument is
`none` when neither `main#tv-content` nor `main.tv-content` matches. -/
def segment_reference_html (doc : Option (List HtmlNode))
    (canonical_url run_id source_artifact_id : String) :
    Except String (List RefSegment × QC) :=
  match doc with
  | none => .error "reference_container_missing"
  | some nodes =>
    let anchors := anchorsWithTails nodes
    if anchors.isEmpty then .error "reference_no_anchors"
    else segRefGo canonical_url run_id source_artifact_id anchors 1 [] [] 0 0

/-- The manifest fields consumed by `segment_reference` in
`scripts/ingest_reference_v6_rendered.py`. -/
structure Manifest where
  status : String
  anchor_count_total : Nat
  canonical_url : String
  artifact_checksum_sha256 : String
deriving DecidableEq

/-- `segment_reference` from `scripts/ingest_reference_v6_rendered.py`
(lines 188-257): refuse a non-`complete` manifest, segment, then run the QC
gate; segments are persisted only on the final `.ok`.  `int(total * 0.1)` is
embedded as `total / 10` (natural division).  The `SystemExit` reason strings
and the `ValueError` reasons of `segment_reference_html` propagate as the
error value. -/
def segment_reference (run_id : String) (manifest : Manifest)
    (doc : Option (List HtmlNode)) : Except String (List RefSegment) :=
  if manifest.status ≠ "complete" then .error "render_incomplete"
  else
    match segment_reference_html doc manifest.canonical_url run_id
        manifest.artifact_checksum_sha256 with
    | .error e => .error e
    | .ok (segments, qc) =>
      if qc.segment_count ≠ manifest.anchor_count_total then .error "segment_count_mismatch"
      else if qc.empty_symbol_names > max 5 (manifest.anchor_count_total / 10) then
        .error "empty_symbol_names"
      else if qc.empty_raw_html > 0 then .error "empty_raw_html"
      else .ok segments

/-- The outcome the (amended) segmentation-completeness claim describes for a
`complete` manifest with `anchor_count_total = N`: either exactly `N`
segments, none with empty serialized content and with at most
`max 5 (N / 10)` empty inferred symbol names, or an abort — before anything
is persisted — with one of the six specific reasons. -/
def qcOkResult (N : Nat) (r : Except String (List RefSegment)) : Prop :=
  match r with
  | .ok segs =>
    segs.length = N ∧ (∀ s ∈ segs, s.raw_html ≠ "") ∧
      segs.countP (fun s => s.symbol_name == "") ≤ max 5 (N / 10)
  | .error e =>
    e ∈ ["reference_container_missing", "reference_no_anchors", "duplicate_anchor_id",
         "segment_count_mismatch", "empty_symbol_names", "empty_raw_html"]

/-! ## Legacy anchor-based segmentation (`segmentation.py`, lines 173-239) -/

/-- The segment record of `segmentation.py` (`Segment` dataclass). -/
structure LegacySegment where
  source_artifact_id : String
  canonical_url : String
  doc_type : String
  pine_version : String
  segment_id : String
  segment_type : String
  segment_order : Nat
  raw_html : String
  anchor_id : Option String
  symbol_name : Option String
  symbol_type : Option String
deriving DecidableEq

/-- The artifact fields consumed by `parse_reference_segments`. -/
structure SegArtifact where
  source_artifact_id : String
  canonical_url : String
  doc_type : String
  pine_version : String
deriving DecidableEq

/-- Anchor filter of `parse_reference_segments` (lines 200-205): every
id-bearing element except `tv-content` — no semantic-marker restriction. -/
def isLegacyAnchor (n : HtmlNode) : Bool :=
  match n.idAttr with
  | some s => s != "tv-content"
  | none => false

/-- Sibling-walk break condition of `parse_reference_segments` (line 216):
any truthy (non-empty) id ends the segment. -/
def legacyBreak (n : HtmlNode) : Bool :=
  match n.idAttr with
  | some s => s != ""
  | none => false

/-- Anchors of the legacy reference parser paired with their following
siblings. -/
def legacyAnchorsWithTails : List HtmlNode → List (HtmlNode × List HtmlNode)
  | [] => []
  | n :: rest =>
    if isLegacyAnchor n then (n, rest) :: legacyAnchorsWithTails rest
    else legacyAnchorsWithTails rest

/-- The per-anchor loop of `parse_reference_segments` (lines 210-237): no
duplicate-id check is performed; `symbol_name` is the anchor text or `None`,
`symbol_type` is `extract_symbol_type` (first non-empty class-hint text or
`None`). -/
def buildLegacySegments (artifact : SegArtifact) :
    List (HtmlNode × List HtmlNode) → Nat → List LegacySegment
  | [], _ => []
  | (anchor, tail) :: rest, order =>
    let anchor_id := anchor.idAttr.getD ""
    { source_artifact_id := artifact.source_artifact_id,
      canonical_url := artifact.canonical_url,
      doc_type := artifact.doc_type,
      pine_version := artifact.pine_version,
      segment_id := artifact.source_artifact_id ++ ":" ++ anchor_id,
      segment_type := "reference_entry",
      segment_order := order,
      raw_html := serialize_nodes (anchor :: tail.takeWhile (fun sib => ! legacyBreak sib)),
      anchor_id := some anchor_id,
      symbol_name := if anchor.ownText = "" then none else some anchor.ownText,
      symbol_type := anchor.classHintTexts.find? (fun t => t != "") }
      :: buildLegacySegments artifact rest (order + 1)

/-- `parse_reference_segments` from `segmentation.py` (lines 190-239). -/
def parse_reference_segments (artifact : SegArtifact) (doc : Option (List HtmlNode)) :
    Except String (List LegacySegment) :=
  match doc with
  | none => .error "reference_container_missing"
  | some nodes =>
    let anchors := legacyAnchorsWithTails nodes
    if anchors.isEmpty then .error "reference_no_anchors"
    else .ok (buildLegacySegments artifact anchors 1)

/-- A reference anchor node with the given id, used in concrete scenarios. -/
def mkAnchorNode (s : String) : HtmlNode :=
  { idAttr := some s, headingTexts := [s], ownText := s,
    classHintTexts := [], html := "<div id=" ++ s ++ ">" ++ s ++ "</div>" }

/-- A `complete` manifest expecting two anchors, for concrete scenarios. -/
def cexManifestC3 : Manifest :=
  { status := "complete", anchor_count_total := 2, canonical_url := "u",
    artifact_checksum_sha256 := "c" }

/-- A container with two anchors sharing the id `var_x`. -/
def cexDupDoc : Option (List HtmlNode) :=
  some [mkAnchorNode "var_x", mkAnchorNode "var_x"]

/-- A well-formed container with two distinct anchors. -/
def goodDoc : Option (List HtmlNode) :=
  some [mkAnchorNode "var_a", mkAnchorNode "fun_b"]

/-- A `partial`-status manifest, for the refusal case. -/
def partialManifestC3 : Manifest :=
  { status := "partial", anchor_count_total := 2, canonical_url := "u",
    artifact_checksum_sha256 := "c" }

/-- The artifact used in legacy-segmentation scenarios. -/
def cexArtifactC6 : SegArtifact :=
  { source_artifact_id := "c", canonical_url := "u", doc_type := "reference",
    pine_version := "v6" }

/-! ## Reference normalization (`reference_normalization.py`) -/

/-- `SYMBOL_TYPES` (line 16): the markers with trailing underscores
stripped. -/
def SYMBOL_TYPES : List String := ANCHOR_PREFIXES.map rstripUnderscores

/-- `derive_symbol_type` (lines 19-23): first matching marker with its
underscore stripped; an unmatched id raises `unknown_anchor_prefix`. -/
def derive_symbol_type (anchor_id : String) : Except String String :=
  match ANCHOR_PREFIXES.find? (fun p => strStartsWith anchor_id p) with
  | some p => .ok (rstripUnderscores p)
  | none => .error ("unknown_anchor_prefix:" ++ anchor_id)

/-- `derive_symbol_type` as invoked on `segment.get("anchor_id")`: in Python a
missing key yields `None` and `None.startswith` raises `AttributeError`,
embedded as a distinguished error string. -/
def deriveSymbolTypeOpt : Option String → Except String String
  | some s => derive_symbol_type s
  | none => .error "attribute_error_none_startswith"

/-- One parsed line of the segments JSONL file, restricted to the keys
`normalize_reference_symbols` reads; `none` models an absent key. -/
structure SegLine where
  anchor_id : Option String
  source_artifact_id : Option String
  symbol_name : Option String
  canonical_url : Option String
  segment_order : Option Nat
  raw_html : Option String
  run_id : Option String
  segment_id : Option String
deriving DecidableEq

/-- Python `f"{x}"` of an optional value: `None` formats as `"None"`. -/
def pyFormatOpt : Option String → String
  | some s => s
  | none => "None"

/-- The normalized reference-symbol record built at lines 51-67. -/
structure NormRecord where
  reference_symbol_id : String
  anchor_id : Option String
  symbol_name : String
  symbol_type : String
  canonical_url : Option String
  pine_version : String
  segment_order : Option Nat
  raw_html : Option String
  run_id : Option String
  source_artifact_id : Option String
  segment_id : Option String
  symbol_name_normalized : String
  symbol_signature : String
  symbol_category : String
  notes : String
deriving DecidableEq

/-- Python `record.get(key) in (None, "")` for an optional string field. -/
def optStrMissing : Option String → Bool
  | none => true
  | some s => s == ""

/-- Python `record.get(key) in (None, "")` for the integer `segment_order`
field: only an absent value is missing (`0` passes). -/
def optNatMissing : Option Nat → Bool
  | none => true
  | some _ => false

/-- The `missing` list computed at lines 69-82, in the source's required-key
order. -/
def missingRequired (r : NormRecord) : List String :=
  (if r.reference_symbol_id == "" then ["reference_symbol_id"] else []) ++
  (if optStrMissing r.anchor_id then ["anchor_id"] else []) ++
  (if r.symbol_name == "" then ["symbol_name"] else []) ++
  (if r.symbol_type == "" then ["symbol_type"] else []) ++
  (if optStrMissing r.canonical_url then ["canonical_url"] else []) ++
  (if r.pine_version == "" then ["pine_version"] else []) ++
  (if optNatMissing r.segment_order then ["segment_order"] else []) ++
  (if optStrMissing r.raw_html then ["raw_html"] else []) ++
  (if optStrMissing r.run_id then ["run_id"] else []) ++
  (if optStrMissing r.source_artifact_id then ["source_artifact_id"] else []) ++
  (if optStrMissing r.segment_id then ["segment_id"] else [])

/-- Process one segment line (loop body, lines 41-98): derive the identifier
and symbol type, build the record, then apply the validation checks in source
order; returns the record to append or the raised error. -/
def normalizeSegment (seen : List String) (seg : SegLine) : Except String NormRecord :=
  let rsid := pyFormatOpt seg.source_artifact_id ++ ":" ++ pyFormatOpt seg.anchor_id
  match deriveSymbolTypeOpt seg.anchor_id with
  | .error e => .error e
  | .ok symbol_type =>
    let record : NormRecord :=
      { reference_symbol_id := rsid,
        anchor_id := seg.anchor_id,
        symbol_name := seg.symbol_name.getD "",
        symbol_type := symbol_type,
        canonical_url := seg.canonical_url,
        pine_version := "v6",
        segment_order := seg.segment_order,
        raw_html := seg.raw_html,
        run_id := seg.run_id,
        source_artifact_id := seg.source_artifact_id,
        segment_id := seg.segment_id,
        symbol_name_normalized := "", symbol_signature := "",
        symbol_category := "", notes := "" }
    if missingRequired record ≠ [] then
      .error ("missing_required:" ++ String.intercalate "," (missingRequired record))
    else if record.pine_version ≠ "v6" then
      .error ("invalid_pine_version:" ++ record.pine_version)
    else if ¬ SYMBOL_TYPES.contains record.symbol_type then
      .error ("invalid_symbol_type:" ++ record.symbol_type)
    else if seen.contains rsid then
      .error ("duplicate_reference_symbol_id:" ++ rsid)
    else .ok record

/-- The streaming write loop of `normalize_reference_symbols`: each valid
record is appended to the output file before the next line is examined, so an
abort leaves the records written so far in place.  Returns the appended
records and the error that aborted the run, if any. -/
def normalizeGo (seen : List String) (acc : List NormRecord) :
    List SegLine → List NormRecord × Option String
  | [] => (acc.reverse, none)
  | seg :: rest =>
    match normalizeSegment seen seg with
    | .error e => (acc.reverse, some e)
    | .ok record =>
      normalizeGo (record.reference_symbol_id :: seen) (record :: acc) rest

/-- `normalize_reference_symbols` (lines 26-100): refuse a non-empty output
file outright, then stream the records.  Blank input lines are skipped by the
source before parsing and are not represented.  The returned pair is (records
appended to the store, abort error if any); `written`/`sample_ids` are views
of the first component. -/
def normalize_reference_symbols (outputNonEmpty : Bool) (segments : List SegLine) :
    List NormRecord × Option String :=
  if outputNonEmpty then ([], some "output_exists")
  else normalizeGo [] [] segments

/-- Whether every line of a batch validates, threading the seen-ids set. -/
def allValidFrom (seen : List String) : List SegLine → Bool
  | [] => true
  | seg :: rest =>
    match normalizeSegment seen seg with
    | .error _ => false
    | .ok record => allValidFrom (record.reference_symbol_id :: seen) rest

/-- The seen-ids set after processing a batch. -/
def seenAfter (seen : List String) : List SegLine → List String
  | [] => seen
  | seg :: rest =>
    match normalizeSegment seen seg with
    | .error _ => seen
    | .ok record => seenAfter (record.reference_symbol_id :: seen) rest

/-- A fully-populated valid segment line. -/
def goodSegLine : SegLine :=
  { anchor_id := some "var_x", source_artifact_id := some "a1",
    symbol_name := some "x", canonical_url := some "u",
    segment_order := some 1, raw_html := some "<div>x</div>",
    run_id := some "r", segment_id := some "a1:var_x" }

/-- A second valid segment line with a distinct identifier. -/
def otherSegLine : SegLine :=
  { anchor_id := some "fun_y", source_artifact_id := some "a1",
    symbol_name := some "y", canonical_url := some "u",
    segment_order := some 2, raw_html := some "<div>y</div>",
    run_id := some "r", segment_id := some "a1:fun_y" }

/-! ## Acquisition engine (`acquisition.py`)

File-system and network effects are explicit: the artifact store is a pair of
association lists (path to raw bytes / path to parsed sidecar), the fetch and
timestamp come from oracles, and SHA-256 is an uninterpreted parameter. -/

/-- The inventory-item fields consumed by `acquire_inventory`. -/
structure Item where
  canonical_url : String
  doc_type : String
  pine_version : String
deriving DecidableEq

/-- The outcome of `fetch_with_retries` for one item: either every retry
raised (the exception reaches the caller's `except`), or a response with an
HTTP status and body bytes. -/
inductive FetchOutcome where
  | fetchError
  | response (status : Nat) (body : List Nat)
deriving DecidableEq

/-- The metadata-sidecar fields the embedding tracks: the stored checksum
(the only field later read back, by `existing_checksum`) and the HTTP status.
The provenance and wall-clock timestamp fields written by `write_raw_and_meta`
are omitted; nothing in the verified properties reads them. -/
structure Meta where
  checksum : String
  http_status : Nat
deriving DecidableEq

/-- The on-disk artifact store. -/
structure Store where
  raw : List (String × List Nat)
  meta : List (String × Meta)
deriving DecidableEq

/-- The `FailureRecord` dataclass (lines 39-45). -/
structure FailureRecord where
  canonical_url : String
  doc_type : String
  pine_version : String
  reason : String
deriving DecidableEq

/-- The `counts` dictionary of `acquire_inventory` (lines 231-237). -/
structure Counts where
  attempted : Nat
  written : Nat
  skipped : Nat
  failed_guide : Nat
  failed_reference : Nat
deriving DecidableEq

/-- The run state: artifact store, run log (JSONL lines), counters. -/
structure AcqState where
  store : Store
  log : List FailureRecord
  counts : Counts
deriving DecidableEq

/-- Python `str.lower` over the characters. -/
def strLower (s : String) : String := String.mk (s.data.map Char.toLower)

/-- Python `line.split(":", 1)[1]`: everything after the first colon. -/
def afterColon (s : String) : String :=
  String.mk ((s.data.dropWhile (fun ch => ch ≠ ':')).drop 1)

/-- Python `str.splitlines` restricted to `\n` separators (the only line
boundary robots.txt uses), over the character list. -/
def splitLinesGo : List Char → List Char → List String
  | acc, [] => [String.mk acc.reverse]
  | acc, ch :: rest =>
    if ch = '\n' then String.mk acc.reverse :: splitLinesGo [] rest
    else splitLinesGo (ch :: acc) rest

/-- Split a robots.txt body into lines. -/
def splitLines (s : String) : List String := splitLinesGo [] s.data

/-- The line scan of `parse_robots_disallow` (lines 133-149): track whether
the wildcard user-agent section is active and collect non-empty `Disallow:`
paths from it. -/
def parseRobotsGo : Bool → List String → List String
  | _, [] => []
  | active, line :: rest =>
    let stripped := pyStrip line
    if stripped = "" ∨ strStartsWith stripped "#" then parseRobotsGo active rest
    else if strStartsWith (strLower stripped) "user-agent:" then
      parseRobotsGo (pyStrip (afterColon stripped) = "*") rest
    else if active ∧ strStartsWith (strLower stripped) "disallow:" then
      (if pyStrip (afterColon stripped) ≠ "" then
        pyStrip (afterColon stripped) :: parseRobotsGo active rest
      else parseRobotsGo active rest)
    else parseRobotsGo active rest

/-- `parse_robots_disallow` (lines 133-149). -/
def parse_robots_disallow (robots_txt : String) : List String :=
  parseRobotsGo false (splitLines robots_txt)

/-- `is_allowed_by_robots` (lines 152-157); `urlparse(url).path` is supplied
by the `urlPath` oracle (the Python URL parser is the interface boundary). -/
def is_allowed_by_robots (urlPath : String → String) (url : String)
    (disallow_paths : List String) : Bool :=
  (if urlPath url = "" then "/" else urlPath url) |> fun path =>
    ! disallow_paths.any (fun d => strStartsWith path d)

/-- UTF-8 bytes of a string (Python `url.encode("utf-8")`). -/
def strBytes (s : String) : List Nat := s.toUTF8.toList.map (fun b => b.toNat)

/-- `url_hash` (lines 55-56) with SHA-256 as a parameter. -/
def url_hash (sha256 : List Nat → String) (url : String) : String :=
  sha256 (strBytes url)

/-- `artifact_paths` (lines 160-171): directory from doc type and version,
file name from the url hash with an optional timestamp suffix; the metadata
sidecar path appends `.meta.json`.  (`safe_makedirs` is a no-op on the store
model.) -/
def artifact_paths (sha256 : List Nat → String) (output_root : String)
    (item : Item) (sfx : Option String) : String × String :=
  let file_hash := url_hash sha256 item.canonical_url
  let base_name :=
    match sfx with
    | some s => file_hash ++ "." ++ s ++ ".html"
    | none => file_hash ++ ".html"
  let raw_path := output_root ++ "/" ++ item.doc_type ++ "/" ++ item.pine_version
      ++ "/" ++ base_name
  (raw_path, raw_path ++ ".meta.json")

/-- `existing_checksum` (lines 174-187) over the store model: both files must
exist, the stored checksum must be truthy (a missing or empty `checksum` key
returns `None`; an unparsable sidecar is representable only as an absent
one), and it must equal the hash of the artifact's current bytes. -/
def existing_checksum (sha256 : List Nat → String) (store : Store)
    (meta_path raw_path : String) : Option String :=
  match store.meta.lookup meta_path, store.raw.lookup raw_path with
  | some m, some bytes =>
    if m.checksum = "" then none
    else if sha256 bytes ≠ m.checksum then none
    else some m.checksum
  | _, _ => none

/-- `write_raw_and_meta` (lines 190-214): write the raw bytes, then the
sidecar carrying the checksum of exactly those bytes. -/
def write_raw_and_meta (sha256 : List Nat → String) (store : Store)
    (raw_path meta_path : String) (status : Nat) (body : List Nat) : Store :=
  { raw := (raw_path, body) :: store.raw,
    meta := (meta_path, { checksum := sha256 body, http_status := status }) :: store.meta }

/-- Append a failure record and apply the asymmetric severity policy
(repeated at lines 250-254, 272-276, 286-290): a `reference` failure
increments `failed_reference` and halts the run (`break` — second component
`true`); a `guide` failure increments `failed_guide` and continues. -/
def recordFailure (st : AcqState) (item : Item) (reason : String) : AcqState × Bool :=
  let logged := { st with log := st.log ++
    [({ canonical_url := item.canonical_url, doc_type := item.doc_type,
        pine_version := item.pine_version, reason := reason } : FailureRecord)] }
  if item.doc_type = "reference" then
    ({ logged with counts :=
        { logged.counts with failed_reference := logged.counts.failed_reference + 1 } }, true)
  else
    ({ logged with counts :=
        { logged.counts with failed_guide := logged.counts.failed_guide + 1 } }, false)

/-- The body of the `for item in inventory` loop of `acquire_inventory`
(lines 240-300) for one item: count the attempt, robots gate, checksum skip,
fetch (outcome supplied by the oracle), HTTP status gate, collision suffixing
(timestamp supplied by the `sfxStr` oracle), then write.  The returned flag
is whether the loop `break`s. -/
def acquireStep (sha256 : List Nat → String) (urlPath : String → String)
    (output_root : String) (disallow : List String)
    (outcome : FetchOutcome) (sfxStr : String)
    (st : AcqState) (item : Item) : AcqState × Bool :=
  let st := { st with counts := { st.counts with attempted := st.counts.attempted + 1 } }
  if ¬ is_allowed_by_robots urlPath item.canonical_url disallow then
    recordFailure st item "robots_disallow"
  else
    let paths := artifact_paths sha256 output_root item none
    if (existing_checksum sha256 st.store paths.2 paths.1).isSome then
      ({ st with counts := { st.counts with skipped := st.counts.skipped + 1 } }, false)
    else
      match outcome with
      | .fetchError => recordFailure st item "fetch_error"
      | .response status body =>
        if status < 200 ∨ 300 ≤ status then
          recordFailure st item ("http_" ++ toString status)
        else
          let paths2 :=
            if (st.store.raw.lookup paths.1).isSome ∨ (st.store.meta.lookup paths.2).isSome
            then artifact_paths sha256 output_root item (some sfxStr)
            else paths
          ({ st with
              store := write_raw_and_meta sha256 st.store paths2.1 paths2.2 status body,
              counts := { st.counts with written := st.counts.written + 1 } }, false)

/-- The `for` loop of `acquire_inventory` with its early `break`; `fetch` is
the per-item outcome oracle and `sfx` the per-position timestamp oracle. -/
def acquireGo (sha256 : List Nat → String) (urlPath : String → String)
    (output_root : String) (disallow : List String)
    (fetch : Item → FetchOutcome) (sfx : Nat → String) :
    AcqState → Nat → List Item → AcqState
  | st, _, [] => st
  | st, i, item :: rest =>
    let step := acquireStep sha256 urlPath output_root disallow (fetch item) (sfx i) st item
    if step.2 then step.1
    else acquireGo sha256 urlPath output_root disallow fetch sfx step.1 (i + 1) rest

/-- The run state at the top of `acquire_inventory`: zero counters, an empty
run log, the pre-existing store. -/
def initAcqState (store : Store) : AcqState :=
  { store := store, log := [],
    counts := { attempted := 0, written := 0, skipped := 0,
                failed_guide := 0, failed_reference := 0 } }

/-- `acquire_inventory` (lines 217-302): parse the robots body (its fetch is
the network boundary), then process the inventory in order from zero counters
and an empty run log over the pre-existing store. -/
def acquire_inventory (sha256 : List Nat → String) (urlPath : String → String)
    (robots_txt : String) (output_root : String)
    (fetch : Item → FetchOutcome) (sfx : Nat → String)
    (store : Store) (inventory : List Item) : AcqState :=
  acquireGo sha256 urlPath output_root (parse_robots_disallow robots_txt) fetch sfx
    (initAcqState store) 0 inventory

/-- Whether processing the items from the given state reaches the end of the
list without any `break`. -/
def noHaltFrom (sha256 : List Nat → String) (urlPath : String → String)
    (output_root : String) (disallow : List String)
    (fetch : Item → FetchOutcome) (sfx : Nat → String) :
    AcqState → Nat → List Item → Bool
  | _, _, [] => true
  | st, i, item :: rest =>
    let step := acquireStep sha256 urlPath output_root disallow (fetch item) (sfx i) st item
    if step.2 then false
    else noHaltFrom sha256 urlPath output_root disallow fetch sfx step.1 (i + 1) rest

/-- Concrete constant hash oracle for the acquisition scenarios. -/
def wSha : List Nat → String := fun _ => "h"

/-- Concrete URL-path oracle for the acquisition scenarios. -/
def wPath : String → String := fun _ => "/p"

/-- A guide item that fetches successfully. -/
def wGuideOk : Item := { canonical_url := "u1", doc_type := "guide", pine_version := "v6" }

/-- A reference item whose fetch exhausts its retries. -/
def wRefBad : Item := { canonical_url := "u2", doc_type := "reference", pine_version := "v6" }

/-- A guide item listed after the failing reference item. -/
def wGuideAfter : Item := { canonical_url := "u3", doc_type := "guide", pine_version := "v6" }

/-- Concrete fetch oracle: `u2` fails, everything else returns 200. -/
def wFetch : Item → FetchOutcome :=
  fun item => if item.canonical_url = "u2" then .fetchError else .response 200 [1]

/-- Concrete timestamp oracle. -/
def wSfx : Nat → String := fun _ => "T"

/-- The empty artifact store. -/
def emptyStore : Store := { raw := [], meta := [] }

/-- A reference item whose artifact is already stored consistently. -/
def wSkipItem : Item :=
  { canonical_url := "u1", doc_type := "reference", pine_version := "v6" }

/-- A store holding `wSkipItem`'s artifact with a matching checksum (under
the constant hash `wSha`). -/
def wSkipStore : Store :=
  { raw := [("out/reference/v6/h.html", [1, 2])],
    meta := [("out/reference/v6/h.html.meta.json", { checksum := "h", http_status := 200 })] }

/-- A store holding a corrupted artifact for `wSkipItem` (checksum mismatch),
forcing a fresh suffixed write on re-acquisition. -/
def wStaleStore : Store :=
  { raw := [("out/reference/v6/h.html", [9])],
    meta := [("out/reference/v6/h.html.meta.json", { checksum := "x", http_status := 200 })] }

/-! # Theorems -/

/-- **C1**: drift severity is `none` iff the anchor-count delta is zero and the
environment is unchanged; `high` iff the delta is non-zero with absolute value
at least 10; `medium` iff the delta is non-zero with absolute value below 10;
`low` iff the delta is zero but the environment changed; and the recommended
action is exactly ignore/manual_review/resegment/block_pipeline for
none/low/medium/high respectively. -/
theorem drift_policy_exact (d : Int) (env : Bool) :
    (drift_severity d env = "none" ↔ (d = 0 ∧ env = false)) ∧
    (drift_severity d env = "high" ↔ (d ≠ 0 ∧ 10 ≤ |d|)) ∧
    (drift_severity d env = "medium" ↔ (d ≠ 0 ∧ |d| < 10)) ∧
    (drift_severity d env = "low" ↔ (d = 0 ∧ env = true)) ∧
    drift_recommended_action "none" = "ignore" ∧
    drift_recommended_action "low" = "manual_review" ∧
    drift_recommended_action "medium" = "resegment" ∧
    drift_recommended_action "high" = "block_pipeline" := by
  refine ⟨?_, ?_, ?_, ?_, rfl, rfl, rfl, rfl⟩ <;>
    (unfold drift_severity; split_ifs with h1 h2 h3 <;> simp_all)

theorem bumpFirstMatch_keys (cs : List (String × Nat)) (s : String) :
    (bumpFirstMatch cs s).map Prod.fst = cs.map Prod.fst := by
  induction cs with
  | nil => rfl
  | cons hd tl ih =>
    obtain ⟨p, n⟩ := hd
    by_cases h : strStartsWith s p <;> simp [bumpFirstMatch, h, ih]

theorem bumpFirstMatch_total (cs : List (String × Nat)) (s : String)
    (h : ∃ pn ∈ cs, strStartsWith s pn.1) :
    countsTotal (bumpFirstMatch cs s) = countsTotal cs + 1 := by
  induction cs with
  | nil => simp at h
  | cons hd tl ih =>
    obtain ⟨p, n⟩ := hd
    have hb : bumpFirstMatch ((p, n) :: tl) s
        = if strStartsWith s p then (p, n + 1) :: tl else (p, n) :: bumpFirstMatch tl s := rfl
    by_cases hp : strStartsWith s p = true
    · rw [hb, if_pos hp]
      simp [countsTotal]
      omega
    · rw [hb, if_neg hp]
      have h' : ∃ pn ∈ tl, strStartsWith s pn.1 := by
        rcases h with ⟨pn, hpn, hs⟩
        rcases List.mem_cons.mp hpn with heq | hmem
        · subst heq; exact absurd hs hp
        · exact ⟨pn, hmem, hs⟩
      have := ih h'
      simp [countsTotal] at this ⊢
      omega

theorem anchor_fold_total : ∀ (ids : List String) (cs : List (String × Nat)),
    (∀ s ∈ ids, matchesAnchorKind s = true) →
    cs.map Prod.fst = ANCHOR_PREFIXES →
    countsTotal (ids.foldl bumpFirstMatch cs) = countsTotal cs + ids.length := by
  intro ids
  induction ids with
  | nil => intro cs _ _; simp
  | cons hd tl ih =>
    intro cs hall hkeys
    have hmatch : ∃ pn ∈ cs, strStartsWith hd pn.1 := by
      have := hall hd (List.mem_cons_self _ _)
      rw [matchesAnchorKind, List.any_eq_true] at this
      rcases this with ⟨p, hp, hs⟩
      have : p ∈ cs.map Prod.fst := hkeys ▸ hp
      rcases List.mem_map.mp this with ⟨pn, hpn, hfst⟩
      exact ⟨pn, hpn, by simpa [hfst] using hs⟩
    have hkeys' : (bumpFirstMatch cs hd).map Prod.fst = ANCHOR_PREFIXES := by
      rw [bumpFirstMatch_keys]; exact hkeys
    have hrec := ih (bumpFirstMatch cs hd)
      (fun s hs => hall s (List.mem_cons_of_mem _ hs)) hkeys'
    calc countsTotal ((hd :: tl).foldl bumpFirstMatch cs)
        = countsTotal (tl.foldl bumpFirstMatch (bumpFirstMatch cs hd)) := by
          rw [List.foldl_cons]
      _ = countsTotal (bumpFirstMatch cs hd) + tl.length := hrec
      _ = countsTotal cs + 1 + tl.length := by rw [bumpFirstMatch_total cs hd hmatch]
      _ = countsTotal cs + (hd :: tl).length := by simp [List.length_cons]; omega

/-- **C9**: in every manifest produced by a render run, `anchor_count_total`
(the number of collected anchor ids) equals the sum of the values of
`anchor_counts_by_prefix` over the seven fixed semantic markers, because every
collected id matches at least one marker and is counted under exactly one (the
first matching marker). -/
theorem anchor_count_total_eq_counts_sum (domIds : List String) :
    countsTotal (anchor_prefix_counts (collectAnchorIds domIds)) =
      (collectAnchorIds domIds).length := by
  have hall : ∀ s ∈ collectAnchorIds domIds, matchesAnchorKind s = true := by
    intro s hs
    rw [collectAnchorIds, List.mem_filter] at hs
    have := hs.2
    simp only [Bool.and_eq_true] at this
    exact this.2
  have hinit : (ANCHOR_PREFIXES.map (fun p => (p, 0))).map Prod.fst = ANCHOR_PREFIXES := by
    simp [ANCHOR_PREFIXES]
  have hfold := anchor_fold_total (collectAnchorIds domIds)
    (ANCHOR_PREFIXES.map (fun p => (p, 0))) hall hinit
  rw [anchor_prefix_counts, hfold]
  have hzero : countsTotal (ANCHOR_PREFIXES.map (fun p => (p, 0))) = 0 := rfl
  omega

theorem renderLoop_notes_empty (threshold checks : Nat) :
    ∀ (rest : List Nat) (prev : Int) (stable c : Nat),
      (renderLoop threshold checks prev stable c rest).2.2 = "" →
      threshold ≤ (renderLoop threshold checks prev stable c rest).1 ∧
      checks ≤ (renderLoop threshold checks prev stable c rest).2.1 := by
  intro rest
  induction rest with
  | nil =>
    intro prev stable c h
    simp only [renderLoop] at h ⊢
    split_ifs at h ⊢ <;> simp_all
  | cons c' rest' ih =>
    intro prev stable c h
    simp only [renderLoop] at h ⊢
    split_ifs at h ⊢ <;> simp_all

/-- **C4**: contrary to the claim, a render in which the global timeout
elapses before the threshold-and-stability condition holds ends with status
`failed` (notes `"render_timeout"`), not `partial`; indeed no trace whatsoever
yields status `partial`, since the only loop exit that leaves `notes` empty is
the one where the condition holds.  The concrete trace evaluates a timed-out
render (threshold 200 never reached) to `("failed", "render_timeout")`. -/
theorem render_timeout_is_failed_and_partial_unreachable :
    (∀ threshold checks first rest,
        (renderStatus threshold checks first rest).1 ≠ "partial") ∧
    renderStatus 200 3 150 [150, 150] = ("failed", "render_timeout") := by
  constructor
  · intro threshold checks first rest
    unfold renderStatus statusOf
    by_cases hn : (renderLoop threshold checks (-1) 0 first rest).2.2 = ""
    · have hc := renderLoop_notes_empty threshold checks rest (-1) 0 first hn
      simp [hn, hc]
    · simp [hn]
  · rfl

/-- **C8**: for every input URL with a scheme or network location,
canonicalization returns the URL with scheme `https`, host `tradingview.com`
folded into `www.tradingview.com` (an absent host defaulted to it), the path's
trailing slash stripped unless the path is exactly `/`, and query and fragment
removed (`claimCanonicalForm` depends on neither); for an input with neither
scheme nor network location it returns no result. -/
theorem canonicalize_url_matches_claim (p : ParsedUrl) :
    (p.scheme ≠ "" ∨ p.netloc ≠ "" → canonicalize_url p = some (claimCanonicalForm p)) ∧
    (p.scheme = "" ∧ p.netloc = "" → canonicalize_url p = none) := by
  constructor
  · intro h
    have hne : ¬ (p.scheme = "" ∧ p.netloc = "") := by
      rintro ⟨h1, h2⟩
      rcases h with h | h
      · exact h h1
      · exact h h2
    simp only [canonicalize_url, claimCanonicalForm, claimHost, claimPath]
    rw [if_neg hne]
    by_cases h1 : p.netloc = "" <;> by_cases h2 : p.netloc = "tradingview.com" <;>
      by_cases h3 : p.path = "" <;> by_cases h4 : p.path = "/" <;>
        simp_all
  · rintro ⟨h1, h2⟩
    simp [canonicalize_url, h1, h2]

/-- Witness for C8 at a concrete input: `http://tradingview.com/pine-script-docs/`
with query and fragment canonicalizes to
`https://www.tradingview.com/pine-script-docs`. -/
theorem canonicalize_url_matches_claim_witness :
    canonicalize_url exampleParsedUrl = some "https://www.tradingview.com/pine-script-docs" ∧
    claimCanonicalForm exampleParsedUrl = "https://www.tradingview.com/pine-script-docs" := by
  refine ⟨?_, by decide⟩
  rw [(canonicalize_url_matches_claim exampleParsedUrl).1 (Or.inl (by decide))]
  decide

theorem segRefGo_error_shape (cu rid said : String) :
    ∀ (l : List (HtmlNode × List HtmlNode)) (idx : Nat) (seen : List String)
      (acc : List RefSegment) (en er : Nat) (e : String),
      segRefGo cu rid said l idx seen acc en er = .error e → e = "duplicate_anchor_id" := by
  intro l
  induction l with
  | nil =>
    intro idx seen acc en er e h
    simp [segRefGo] at h
  | cons hd rest ih =>
    intro idx seen acc en er e h
    obtain ⟨anchor, tail⟩ := hd
    simp only [segRefGo] at h
    by_cases hc : seen.contains (anchor.idAttr.getD "") = true
    · rw [if_pos hc] at h
      exact ((Except.error.injEq _ _).mp h).symm
    · rw [if_neg hc] at h
      exact ih _ _ _ _ _ _ h

theorem segRefGo_ok_counts (cu rid said : String) :
    ∀ (l : List (HtmlNode × List HtmlNode)) (idx : Nat) (seen : List String)
      (acc : List RefSegment) (en er : Nat) (segs : List RefSegment) (qc : QC),
      segRefGo cu rid said l idx seen acc en er = .ok (segs, qc) →
      en = acc.countP (fun s => s.symbol_name == "") →
      er = acc.countP (fun s => s.raw_html == "") →
      qc.segment_count = segs.length ∧
      qc.empty_symbol_names = segs.countP (fun s => s.symbol_name == "") ∧
      qc.empty_raw_html = segs.countP (fun s => s.raw_html == "") := by
  intro l
  induction l with
  | nil =>
    intro idx seen acc en er segs qc h hen her
    simp only [segRefGo, Except.ok.injEq, Prod.mk.injEq] at h
    obtain ⟨hsegs, hqc⟩ := h
    subst hsegs
    subst hqc
    refine ⟨by simp, ?_, ?_⟩
    · exact hen.trans ((List.reverse_perm acc).countP_eq _).symm
    · exact her.trans ((List.reverse_perm acc).countP_eq _).symm
  | cons hd rest ih =>
    intro idx seen acc en er segs qc h hen her
    obtain ⟨anchor, tail⟩ := hd
    simp only [segRefGo] at h
    by_cases hc : seen.contains (anchor.idAttr.getD "") = true
    · rw [if_pos hc] at h
      simp at h
    · rw [if_neg hc] at h
      refine ih _ _ _ _ _ _ _ h ?_ ?_
      · by_cases hx : infer_symbol_name anchor = "" <;>
          simp [List.countP_cons, hx, hen]
      · by_cases hx :
          serialize_nodes (anchor :: tail.takeWhile (fun sib => ! breaksRefSegment sib)) = "" <;>
          simp [List.countP_cons, hx, her]

theorem segment_reference_html_error_shape (doc : Option (List HtmlNode))
    (cu rid said e : String)
    (h : segment_reference_html doc cu rid said = .error e) :
    e = "reference_container_missing" ∨ e = "reference_no_anchors" ∨
      e = "duplicate_anchor_id" := by
  match doc with
  | none =>
    simp only [segment_reference_html, Except.error.injEq] at h
    exact Or.inl h.symm
  | some nodes =>
    simp only [segment_reference_html] at h
    split_ifs at h with hemp
    · exact Or.inr (Or.inl ((Except.error.injEq _ _).mp h).symm)
    · exact Or.inr (Or.inr (segRefGo_error_shape cu rid said _ _ _ _ _ _ _ h))

theorem segment_reference_html_ok_counts (doc : Option (List HtmlNode))
    (cu rid said : String) (segs : List RefSegment) (qc : QC)
    (h : segment_reference_html doc cu rid said = .ok (segs, qc)) :
    qc.segment_count = segs.length ∧
    qc.empty_symbol_names = segs.countP (fun s => s.symbol_name == "") ∧
    qc.empty_raw_html = segs.countP (fun s => s.raw_html == "") := by
  match doc with
  | none => simp [segment_reference_html] at h
  | some nodes =>
    simp only [segment_reference_html] at h
    split_ifs at h with hemp
    exact segRefGo_ok_counts cu rid said _ _ _ _ _ _ _ _ h rfl rfl

/-- **C3** (amended): for every manifest of status `complete` with
`anchor_count_total = N`, anchor-based segmentation either returns exactly `N`
segments, each with non-empty serialized content and with at most
`max 5 (N / 10)` empty inferred symbol names, or aborts — before any segment
is persisted — with one of the specific reasons `reference_container_missing`,
`reference_no_anchors`, `duplicate_anchor_id`, `segment_count_mismatch`,
`empty_symbol_names` or `empty_raw_html`; and it refuses to run
(`render_incomplete`) on any manifest whose status is not `complete`. -/
theorem segmentation_qc_gate (run_id : String) (m : Manifest)
    (doc : Option (List HtmlNode)) :
    (m.status = "complete" →
      qcOkResult m.anchor_count_total (segment_reference run_id m doc)) ∧
    (m.status ≠ "complete" →
      segment_reference run_id m doc = .error "render_incomplete") := by
  constructor
  · intro hst
    unfold segment_reference
    rw [if_neg (by simp [hst])]
    cases hsh : segment_reference_html doc m.canonical_url run_id
        m.artifact_checksum_sha256 with
    | error e =>
      have := segment_reference_html_error_shape _ _ _ _ _ hsh
      rcases this with h | h | h <;> simp [qcOkResult, h]
    | ok pair =>
      obtain ⟨segments, qc⟩ := pair
      have hc := segment_reference_html_ok_counts _ _ _ _ _ _ hsh
      obtain ⟨hc1, hc2, hc3⟩ := hc
      dsimp only
      split_ifs with g1 g2 g3
      · simp [qcOkResult]
      · simp [qcOkResult]
      · simp [qcOkResult]
      · refine ⟨by omega, ?_, by omega⟩
        intro s hs
        have hzero : segments.countP (fun s => s.raw_html == "") = 0 := by omega
        have := List.countP_eq_zero.mp hzero s hs
        simpa using this
  · intro hst
    unfold segment_reference
    rw [if_pos (by simpa using hst)]

/-- Witness for C3 at concrete inputs: a `complete` two-anchor manifest with a
well-formed container passes the gate, and a `partial` manifest is refused. -/
theorem segmentation_qc_gate_witness :
    qcOkResult 2 (segment_reference "r" cexManifestC3 goodDoc) ∧
    segment_reference "r" partialManifestC3 goodDoc = .error "render_incomplete" :=
  ⟨(segmentation_qc_gate "r" cexManifestC3 goodDoc).1 rfl,
   (segmentation_qc_gate "r" partialManifestC3 goodDoc).2 (by decide)⟩

/-- Counterexample for C3 as frozen: on a `complete` manifest and a container
with a duplicated anchor id, segmentation aborts with reason
`duplicate_anchor_id`, which is none of the three reasons the claim lists. -/
theorem segmentation_qc_gate_cex :
    cexManifestC3.status = "complete" ∧
    segment_reference "r" cexManifestC3 cexDupDoc = .error "duplicate_anchor_id" ∧
    ("duplicate_anchor_id" : String) ∉
      ["segment_count_mismatch", "empty_symbol_names", "empty_raw_html"] := by
  refine ⟨rfl, by rfl, by decide⟩

theorem anchorsWithTails_fst (nodes : List HtmlNode) :
    (anchorsWithTails nodes).map Prod.fst = nodes.filter isRefAnchor := by
  induction nodes with
  | nil => rfl
  | cons n rest ih =>
    by_cases h : isRefAnchor n <;> simp [anchorsWithTails, List.filter_cons, h, ih]

theorem segRefGo_dup (cu rid said : String) :
    ∀ (l : List (HtmlNode × List HtmlNode)) (idx : Nat) (seen : List String)
      (acc : List RefSegment) (en er : Nat),
      (¬ (l.map (fun t => t.1.idAttr.getD "")).Nodup ∨
        ∃ x ∈ l.map (fun t => t.1.idAttr.getD ""), x ∈ seen) →
      segRefGo cu rid said l idx seen acc en er = .error "duplicate_anchor_id" := by
  intro l
  induction l with
  | nil =>
    intro idx seen acc en er h
    rcases h with h | ⟨x, hx, _⟩
    · exact absurd List.nodup_nil h
    · simp at hx
  | cons hd rest ih =>
    intro idx seen acc en er h
    obtain ⟨anchor, tail⟩ := hd
    simp only [segRefGo]
    by_cases hc : seen.contains (anchor.idAttr.getD "") = true
    · rw [if_pos hc]
    · rw [if_neg hc]
      apply ih
      have hnotin : anchor.idAttr.getD "" ∉ seen := by
        simpa using hc
      rcases h with h | ⟨x, hx, hxs⟩
      · rw [List.map_cons, List.nodup_cons] at h
        by_cases hmem : anchor.idAttr.getD "" ∈ rest.map (fun t => t.1.idAttr.getD "")
        · exact Or.inr ⟨anchor.idAttr.getD "", hmem, List.mem_cons_self _ _⟩
        · refine Or.inl (fun hnd => h ⟨hmem, hnd⟩)
      · rw [List.map_cons, List.mem_cons] at hx
        rcases hx with hx | hx
        · exact absurd (hx ▸ hxs) hnotin
        · exact Or.inr ⟨x, hx, List.mem_cons_of_mem _ hxs⟩

/-- **C6** (amended): the rendered-reference segmentation
(`segment_reference_html`) treats two anchors with the same id within one
document as a hard failure with reason `duplicate_anchor_id`, producing no
segments; the legacy `parse_reference_segments` in `segmentation.py` performs
no such check (see the counterexample). -/
theorem duplicate_anchor_id_policy (nodes : List HtmlNode) (cu rid said : String)
    (h : ¬ ((nodes.filter isRefAnchor).map (fun n => n.idAttr.getD "")).Nodup) :
    segment_reference_html (some nodes) cu rid said = .error "duplicate_anchor_id" := by
  have hids : (anchorsWithTails nodes).map (fun t => t.1.idAttr.getD "") =
      (nodes.filter isRefAnchor).map (fun n => n.idAttr.getD "") := by
    rw [← anchorsWithTails_fst, List.map_map]
    rfl
  simp only [segment_reference_html]
  by_cases hemp : (anchorsWithTails nodes).isEmpty
  · exfalso
    have : anchorsWithTails nodes = [] := List.isEmpty_iff.mp hemp
    rw [this] at hids
    rw [← hids] at h
    exact h List.nodup_nil
  · rw [if_neg (by simpa using hemp)]
    exact segRefGo_dup cu rid said _ _ _ _ _ _ (Or.inl (hids ▸ h))

/-- Witness for C6 at a concrete input: two anchors with id `var_x` make
`segment_reference_html` fail with `duplicate_anchor_id`. -/
theorem duplicate_anchor_id_policy_witness :
    segment_reference_html (some [mkAnchorNode "var_x", mkAnchorNode "var_x"])
      "u" "r" "c" = .error "duplicate_anchor_id" :=
  duplicate_anchor_id_policy [mkAnchorNode "var_x", mkAnchorNode "var_x"]
    "u" "r" "c" (by decide)

/-- Counterexample for C6 as frozen: the legacy anchor-based segmentation
(`parse_reference_segments`) happily returns two segments — with colliding
segment ids — for a document whose two anchors share the id `var_x`, instead
of failing with `duplicate_anchor_id`. -/
theorem parse_reference_segments_accepts_duplicate_ids :
    (parse_reference_segments cexArtifactC6 cexDupDoc).toOption.map
        (fun segs => segs.map (fun s => s.segment_id)) = some ["c:var_x", "c:var_x"] := by
  decide

theorem normalizeGo_append (bad : SegLine) (rest : List SegLine) (e : String) :
    ∀ (pre : List SegLine) (seen : List String) (acc : List NormRecord),
      allValidFrom seen pre = true →
      normalizeSegment (seenAfter seen pre) bad = .error e →
      normalizeGo seen acc (pre ++ bad :: rest) =
        ((normalizeGo seen acc pre).1, some e) := by
  intro pre
  induction pre with
  | nil =>
    intro seen acc _ hbad
    simp only [seenAfter] at hbad
    simp only [List.nil_append, normalizeGo, hbad]
  | cons seg pre' ih =>
    intro seen acc hval hbad
    cases hseg : normalizeSegment seen seg with
    | error e' =>
      simp only [allValidFrom, hseg] at hval
      exact absurd hval (by simp)
    | ok record =>
      simp only [allValidFrom, hseg] at hval
      simp only [seenAfter, hseg] at hbad
      simp only [List.cons_append, normalizeGo, hseg]
      exact ih _ _ hval hbad

/-- **C5** (amended): normalization aborts with a hard failure at the first
offending line (duplicate identifier within the batch, missing required
field, or unknown anchor marker): the offending record and every later line
are never written, but the valid records preceding it in the batch have
already been appended by the streaming write loop — a partial write; a
pre-existing non-empty output store is refused outright before any write
(`output_exists`). -/
theorem normalization_abort_semantics (pre : List SegLine) (bad : SegLine)
    (rest : List SegLine) (e : String)
    (hpre : allValidFrom [] pre = true)
    (hbad : normalizeSegment (seenAfter [] pre) bad = .error e) :
    normalize_reference_symbols false (pre ++ bad :: rest) =
      ((normalize_reference_symbols false pre).1, some e) ∧
    normalize_reference_symbols true (pre ++ bad :: rest) = ([], some "output_exists") := by
  refine ⟨?_, rfl⟩
  have h1 : normalize_reference_symbols false (pre ++ bad :: rest) =
      normalizeGo [] [] (pre ++ bad :: rest) := rfl
  have h2 : normalize_reference_symbols false pre = normalizeGo [] [] pre := rfl
  rw [h1, h2]
  exact normalizeGo_append bad rest e pre [] [] hpre hbad

/-- Witness for C5 at concrete inputs: the valid prefix `[goodSegLine]` is
persisted, the duplicate of its identifier aborts the run, the following line
is never reached, and a non-empty output store is refused outright. -/
theorem normalization_abort_semantics_witness :
    normalize_reference_symbols false ([goodSegLine] ++ goodSegLine :: [otherSegLine]) =
      ((normalize_reference_symbols false [goodSegLine]).1,
        some "duplicate_reference_symbol_id:a1:var_x") ∧
    normalize_reference_symbols true ([goodSegLine] ++ goodSegLine :: [otherSegLine]) =
      ([], some "output_exists") :=
  normalization_abort_semantics [goodSegLine] goodSegLine [otherSegLine]
    "duplicate_reference_symbol_id:a1:var_x" rfl rfl

/-- Counterexample for C5 as frozen: a batch of two identical valid segment
lines aborts on the duplicate identifier — but only after the first record
has already been appended to the output store, so the abort does not leave
the store unchanged and a partial set of the batch is persisted. -/
theorem normalization_partial_write_cex :
    (normalize_reference_symbols false [goodSegLine, goodSegLine]).2 =
      some "duplicate_reference_symbol_id:a1:var_x" ∧
    (normalize_reference_symbols false [goodSegLine, goodSegLine]).1.length = 1 :=
  ⟨rfl, rfl⟩

theorem acquireStep_attempted (sha256 : List Nat → String) (urlPath : String → String)
    (root : String) (disallow : List String) (o : FetchOutcome) (s : String)
    (st : AcqState) (item : Item) :
    (acquireStep sha256 urlPath root disallow o s st item).1.counts.attempted =
      st.counts.attempted + 1 := by
  unfold acquireStep recordFailure
  dsimp only
  generalize artifact_paths sha256 root item (some s) = sufPaths
  generalize hbp : artifact_paths sha256 root item none = basePaths
  generalize existing_checksum sha256 st.store basePaths.2 basePaths.1 = ec
  generalize List.lookup basePaths.1 st.store.raw = lr
  generalize List.lookup basePaths.2 st.store.meta = lm
  cases o <;> split_ifs <;> simp_all [apply_ite]

theorem acquireStep_halt_iff_ref_failure (sha256 : List Nat → String)
    (urlPath : String → String) (root : String) (disallow : List String)
    (o : FetchOutcome) (s : String) (st : AcqState) (item : Item) :
    ((acquireStep sha256 urlPath root disallow o s st item).2 = true →
      item.doc_type = "reference" ∧
      (acquireStep sha256 urlPath root disallow o s st item).1.counts.failed_reference =
        st.counts.failed_reference + 1) ∧
    ((acquireStep sha256 urlPath root disallow o s st item).2 = false →
      (acquireStep sha256 urlPath root disallow o s st item).1.counts.failed_reference =
        st.counts.failed_reference) := by
  unfold acquireStep recordFailure
  dsimp only
  generalize artifact_paths sha256 root item (some s) = sufPaths
  generalize hbp : artifact_paths sha256 root item none = basePaths
  generalize existing_checksum sha256 st.store basePaths.2 basePaths.1 = ec
  generalize List.lookup basePaths.1 st.store.raw = lr
  generalize List.lookup basePaths.2 st.store.meta = lm
  cases o <;> split_ifs <;> simp_all [apply_ite]

theorem acquireGo_no_halt_counts (sha256 : List Nat → String) (urlPath : String → String)
    (root : String) (disallow : List String) (fetch : Item → FetchOutcome)
    (sfx : Nat → String) :
    ∀ (inv : List Item) (st : AcqState) (i : Nat),
      noHaltFrom sha256 urlPath root disallow fetch sfx st i inv = true →
      (acquireGo sha256 urlPath root disallow fetch sfx st i inv).counts.failed_reference =
        st.counts.failed_reference ∧
      (acquireGo sha256 urlPath root disallow fetch sfx st i inv).counts.attempted =
        st.counts.attempted + inv.length := by
  intro inv
  induction inv with
  | nil => intro st i _; exact ⟨rfl, rfl⟩
  | cons x rest ih =>
    intro st i hnh
    simp only [noHaltFrom] at hnh
    by_cases hx : (acquireStep sha256 urlPath root disallow (fetch x) (sfx i) st x).2 = true
    · rw [if_pos hx] at hnh
      exact absurd hnh (by simp)
    · rw [if_neg hx] at hnh
      have hstep := (acquireStep_halt_iff_ref_failure sha256 urlPath root disallow
        (fetch x) (sfx i) st x).2 (by simpa using hx)
      have hatt := acquireStep_attempted sha256 urlPath root disallow (fetch x) (sfx i) st x
      have hgo : acquireGo sha256 urlPath root disallow fetch sfx st i (x :: rest) =
          acquireGo sha256 urlPath root disallow fetch sfx
            (acquireStep sha256 urlPath root disallow (fetch x) (sfx i) st x).1 (i + 1) rest := by
        simp only [acquireGo]
        rw [if_neg hx]
      rw [hgo]
      obtain ⟨h1, h2⟩ := ih _ (i + 1) hnh
      refine ⟨by rw [h1, hstep], ?_⟩
      rw [h2, hatt]
      simp [List.length_cons]
      omega

theorem acquireGo_halt_append (sha256 : List Nat → String) (urlPath : String → String)
    (root : String) (disallow : List String) (fetch : Item → FetchOutcome)
    (sfx : Nat → String) (bad : Item) (rest : List Item) :
    ∀ (pre : List Item) (st : AcqState) (i : Nat),
      noHaltFrom sha256 urlPath root disallow fetch sfx st i pre = true →
      (acquireStep sha256 urlPath root disallow (fetch bad) (sfx (i + pre.length))
        (acquireGo sha256 urlPath root disallow fetch sfx st i pre) bad).2 = true →
      acquireGo sha256 urlPath root disallow fetch sfx st i (pre ++ bad :: rest) =
        (acquireStep sha256 urlPath root disallow (fetch bad) (sfx (i + pre.length))
          (acquireGo sha256 urlPath root disallow fetch sfx st i pre) bad).1 := by
  intro pre
  induction pre with
  | nil =>
    intro st i _ hbad
    simp only [List.length_nil, Nat.add_zero, acquireGo] at hbad ⊢
    rw [if_pos hbad]
  | cons x pre' ih =>
    intro st i hnh hbad
    simp only [noHaltFrom] at hnh
    by_cases hx : (acquireStep sha256 urlPath root disallow (fetch x) (sfx i) st x).2 = true
    · rw [if_pos hx] at hnh
      exact absurd hnh (by simp)
    · rw [if_neg hx] at hnh
      have hgo : acquireGo sha256 urlPath root disallow fetch sfx st i (x :: pre') =
          acquireGo sha256 urlPath root disallow fetch sfx
            (acquireStep sha256 urlPath root disallow (fetch x) (sfx i) st x).1 (i + 1) pre' := by
        simp only [acquireGo]
        rw [if_neg hx]
      have hidx : i + (x :: pre').length = (i + 1) + pre'.length := by
        simp [List.length_cons]
        omega
      rw [hgo, hidx] at hbad
      have hgoal : acquireGo sha256 urlPath root disallow fetch sfx st i
          ((x :: pre') ++ bad :: rest) =
          acquireGo sha256 urlPath root disallow fetch sfx
            (acquireStep sha256 urlPath root disallow (fetch x) (sfx i) st x).1 (i + 1)
            (pre' ++ bad :: rest) := by
        simp only [List.cons_append, acquireGo]
        rw [if_neg hx]
        rfl
      rw [hgoal, hgo, hidx]
      exact ih _ (i + 1) hnh hbad

theorem acquireStep_guide_never_halts (sha256 : List Nat → String)
    (urlPath : String → String) (root : String) (disallow : List String)
    (o : FetchOutcome) (s : String) (st : AcqState) (item : Item)
    (h : item.doc_type ≠ "reference") :
    (acquireStep sha256 urlPath root disallow o s st item).2 = false := by
  unfold acquireStep recordFailure
  dsimp only
  generalize artifact_paths sha256 root item (some s) = sufPaths
  generalize hbp : artifact_paths sha256 root item none = basePaths
  generalize existing_checksum sha256 st.store basePaths.2 basePaths.1 = ec
  generalize List.lookup basePaths.1 st.store.raw = lr
  generalize List.lookup basePaths.2 st.store.meta = lm
  cases o <;> split_ifs <;> simp_all [apply_ite]

/-- **C2**: acquisition processes the inventory in order and the first
failure (robots disallow, exhausted retries, or non-2xx status) on a
`reference` item stops the entire run immediately: the run over
`pre ++ bad :: rest` equals the run truncated right after `bad` (so no item
of `rest` is ever attempted), it records exactly one reference failure, its
`attempted` counter covers exactly the processed prefix plus the failing
item, a halting item is necessarily a `reference`, and an item whose
doc type is not `reference` never halts the loop — its failure is only
logged and counted. -/
theorem acquisition_halt_semantics (sha256 : List Nat → String)
    (urlPath : String → String) (robots_txt root : String)
    (fetch : Item → FetchOutcome) (sfx : Nat → String) (store : Store)
    (pre : List Item) (bad : Item) (rest : List Item)
    (hpre : noHaltFrom sha256 urlPath root (parse_robots_disallow robots_txt) fetch sfx
      (initAcqState store) 0 pre = true)
    (hbad : (acquireStep sha256 urlPath root (parse_robots_disallow robots_txt) (fetch bad)
      (sfx pre.length)
      (acquireGo sha256 urlPath root (parse_robots_disallow robots_txt) fetch sfx
        (initAcqState store) 0 pre) bad).2 = true) :
    acquire_inventory sha256 urlPath robots_txt root fetch sfx store (pre ++ bad :: rest) =
      (acquireStep sha256 urlPath root (parse_robots_disallow robots_txt) (fetch bad)
        (sfx pre.length)
        (acquireGo sha256 urlPath root (parse_robots_disallow robots_txt) fetch sfx
          (initAcqState store) 0 pre) bad).1 ∧
    bad.doc_type = "reference" ∧
    (acquire_inventory sha256 urlPath robots_txt root fetch sfx store
      (pre ++ bad :: rest)).counts.failed_reference = 1 ∧
    (acquire_inventory sha256 urlPath robots_txt root fetch sfx store
      (pre ++ bad :: rest)).counts.attempted = pre.length + 1 ∧
    (∀ (st : AcqState) (item : Item) (o : FetchOutcome) (s : String),
      item.doc_type ≠ "reference" →
      (acquireStep sha256 urlPath root (parse_robots_disallow robots_txt) o s st item).2 =
        false) := by
  have hbad0 : (acquireStep sha256 urlPath root (parse_robots_disallow robots_txt) (fetch bad)
      (sfx (0 + pre.length))
      (acquireGo sha256 urlPath root (parse_robots_disallow robots_txt) fetch sfx
        (initAcqState store) 0 pre) bad).2 = true := by
    simpa using hbad
  have hrun : acquire_inventory sha256 urlPath robots_txt root fetch sfx store
      (pre ++ bad :: rest) =
      (acquireStep sha256 urlPath root (parse_robots_disallow robots_txt) (fetch bad)
        (sfx pre.length)
        (acquireGo sha256 urlPath root (parse_robots_disallow robots_txt) fetch sfx
          (initAcqState store) 0 pre) bad).1 := by
    unfold acquire_inventory
    have := acquireGo_halt_append sha256 urlPath root (parse_robots_disallow robots_txt)
      fetch sfx bad rest pre (initAcqState store) 0 hpre hbad0
    simpa using this
  have hstep := (acquireStep_halt_iff_ref_failure sha256 urlPath root
    (parse_robots_disallow robots_txt) (fetch bad) (sfx pre.length) _ bad).1 hbad
  have hcounts := acquireGo_no_halt_counts sha256 urlPath root
    (parse_robots_disallow robots_txt) fetch sfx pre (initAcqState store) 0 hpre
  refine ⟨hrun, hstep.1, ?_, ?_, ?_⟩
  · rw [hrun, hstep.2, hcounts.1]
    rfl
  · rw [hrun, acquireStep_attempted, hcounts.2]
    simp [initAcqState]
  · intro st item o s h
    exact acquireStep_guide_never_halts sha256 urlPath root _ o s st item h

/-- Witness for C2 at a concrete three-item inventory whose second item is a
failing `reference`: item 1 is processed, the run halts at item 2 with exactly
one reference failure and two attempts, and item 3 is never attempted. -/
theorem acquisition_halt_semantics_witness :
    acquire_inventory wSha wPath "" "out" wFetch wSfx emptyStore
        ([wGuideOk] ++ wRefBad :: [wGuideAfter]) =
      (acquireStep wSha wPath "out" (parse_robots_disallow "") (wFetch wRefBad)
        (wSfx [wGuideOk].length)
        (acquireGo wSha wPath "out" (parse_robots_disallow "") wFetch wSfx
          (initAcqState emptyStore) 0 [wGuideOk]) wRefBad).1 ∧
    wRefBad.doc_type = "reference" ∧
    (acquire_inventory wSha wPath "" "out" wFetch wSfx emptyStore
      ([wGuideOk] ++ wRefBad :: [wGuideAfter])).counts.failed_reference = 1 ∧
    (acquire_inventory wSha wPath "" "out" wFetch wSfx emptyStore
      ([wGuideOk] ++ wRefBad :: [wGuideAfter])).counts.attempted = [wGuideOk].length + 1 ∧
    (∀ (st : AcqState) (item : Item) (o : FetchOutcome) (s : String),
      item.doc_type ≠ "reference" →
      (acquireStep wSha wPath "out" (parse_robots_disallow "") o s st item).2 = false) :=
  acquisition_halt_semantics wSha wPath "" "out" wFetch wSfx emptyStore
    [wGuideOk] wRefBad [wGuideAfter] (by decide) (by decide)

theorem acquireStep_skip (sha256 : List Nat → String) (urlPath : String → String)
    (root : String) (disallow : List String) (o : FetchOutcome) (s : String)
    (st : AcqState) (item : Item)
    (hrob : is_allowed_by_robots urlPath item.canonical_url disallow = true)
    (hex : (existing_checksum sha256 st.store (artifact_paths sha256 root item none).2
        (artifact_paths sha256 root item none).1).isSome = true) :
    acquireStep sha256 urlPath root disallow o s st item =
      ({ st with counts := { st.counts with
          attempted := st.counts.attempted + 1,
          skipped := st.counts.skipped + 1 } }, false) := by
  unfold acquireStep
  dsimp only
  rw [if_neg (not_not_intro hrob), if_pos hex]

theorem acquireGo_all_skip (sha256 : List Nat → String) (urlPath : String → String)
    (root : String) (disallow : List String) (fetch : Item → FetchOutcome)
    (sfx : Nat → String) :
    ∀ (inv : List Item) (st : AcqState) (i : Nat),
      (∀ item ∈ inv,
        is_allowed_by_robots urlPath item.canonical_url disallow = true ∧
        (existing_checksum sha256 st.store (artifact_paths sha256 root item none).2
            (artifact_paths sha256 root item none).1).isSome = true) →
      acquireGo sha256 urlPath root disallow fetch sfx st i inv =
        { st with counts := { st.counts with
            attempted := st.counts.attempted + inv.length,
            skipped := st.counts.skipped + inv.length } } := by
  intro inv
  induction inv with
  | nil => intro st i _; rfl
  | cons x rest ih =>
    intro st i h
    have hx := h x (List.mem_cons_self _ _)
    have hstep := acquireStep_skip sha256 urlPath root disallow (fetch x) (sfx i) st x hx.1 hx.2
    have hgo : acquireGo sha256 urlPath root disallow fetch sfx st i (x :: rest) =
        acquireGo sha256 urlPath root disallow fetch sfx
          ({ st with counts := { st.counts with
              attempted := st.counts.attempted + 1,
              skipped := st.counts.skipped + 1 } }) (i + 1) rest := by
      simp only [acquireGo, hstep]
      rfl
    rw [hgo]
    rw [ih ({ st with counts := { st.counts with
        attempted := st.counts.attempted + 1,
        skipped := st.counts.skipped + 1 } }) (i + 1)
      (fun item hm => h item (List.mem_cons_of_mem _ hm))]
    dsimp only
    have hlen : ∀ a : Nat, a + 1 + rest.length = a + (x :: rest).length := by
      intro a
      simp [List.length_cons]
      omega
    rw [hlen, hlen]

/-- **C7**: an inventory item whose
artifact and sidecar already exist with a stored checksum matching the
artifact's current bytes is skipped — the step result is independent of the
fetch and timestamp oracles (no fetch happens), the store, run log and
`written` count are untouched, and `skipped` increments by exactly one; and a
whole run over an inventory all of whose items are already consistently
stored leaves the artifact store identical, writes and logs nothing, and
counts the entire inventory as skipped. -/
theorem checksum_skip_idempotent (sha256 : List Nat → String)
    (urlPath : String → String) (root : String) :
    (∀ (disallow : List String) (o : FetchOutcome) (s : String)
        (st : AcqState) (item : Item),
      is_allowed_by_robots urlPath item.canonical_url disallow = true →
      (existing_checksum sha256 st.store (artifact_paths sha256 root item none).2
          (artifact_paths sha256 root item none).1).isSome = true →
      acquireStep sha256 urlPath root disallow o s st item =
        ({ st with counts := { st.counts with
            attempted := st.counts.attempted + 1,
            skipped := st.counts.skipped + 1 } }, false)) ∧
    (∀ (robots_txt : String) (fetch : Item → FetchOutcome) (sfx : Nat → String)
        (store : Store) (inventory : List Item),
      (∀ item ∈ inventory,
        is_allowed_by_robots urlPath item.canonical_url
          (parse_robots_disallow robots_txt) = true ∧
        (existing_checksum sha256 store (artifact_paths sha256 root item none).2
            (artifact_paths sha256 root item none).1).isSome = true) →
      acquire_inventory sha256 urlPath robots_txt root fetch sfx store inventory =
        { store := store, log := [],
          counts := { attempted := inventory.length, written := 0,
                      skipped := inventory.length, failed_guide := 0,
                      failed_reference := 0 } }) := by
  constructor
  · intro disallow o s st item hrob hex
    exact acquireStep_skip sha256 urlPath root disallow o s st item hrob hex
  · intro robots_txt fetch sfx store inventory h
    unfold acquire_inventory
    rw [acquireGo_all_skip sha256 urlPath root (parse_robots_disallow robots_txt)
      fetch sfx inventory (initAcqState store) 0 (fun item hm => h item hm)]
    simp [initAcqState]

/-- Witness for C7 at a concrete input: re-acquiring an item whose artifact
is stored with a matching checksum skips it regardless of the fetch outcome,
and a one-item run over a consistent store changes nothing. -/
theorem checksum_skip_idempotent_witness :
    acquireStep wSha wPath "out" [] (.response 200 [1]) "T"
        (initAcqState wSkipStore) wSkipItem =
      ({ initAcqState wSkipStore with counts :=
          { (initAcqState wSkipStore).counts with
            attempted := (initAcqState wSkipStore).counts.attempted + 1,
            skipped := (initAcqState wSkipStore).counts.skipped + 1 } }, false) ∧
    acquire_inventory wSha wPath "" "out" wFetch wSfx wSkipStore [wSkipItem] =
      { store := wSkipStore, log := [],
        counts := { attempted := [wSkipItem].length, written := 0,
                    skipped := [wSkipItem].length, failed_guide := 0,
                    failed_reference := 0 } } :=
  ⟨(checksum_skip_idempotent wSha wPath "out").1 [] (.response 200 [1]) "T"
      (initAcqState wSkipStore) wSkipItem (by decide) (by decide),
   (checksum_skip_idempotent wSha wPath "out").2 "" wFetch wSfx wSkipStore [wSkipItem]
      (by decide)⟩

theorem lookup_cons_preserve {β : Type} (l : List (String × β)) (k : String) (v : β)
    (p : String) (b : β) (hl : List.lookup p l = some b)
    (hk : List.lookup k l = none) :
    List.lookup p ((k, v) :: l) = some b := by
  have hne : (p == k) = false := by
    refine beq_eq_false_iff_ne.mpr (fun h => ?_)
    rw [h, hk] at hl
    cases hl
  simp [List.lookup, hne]
  exact hl

theorem acquireStep_store_shape (sha256 : List Nat → String)
    (urlPath : String → String) (root : String) (disallow : List String)
    (o : FetchOutcome) (s : String) (st : AcqState) (item : Item) :
    (acquireStep sha256 urlPath root disallow o s st item).1.store = st.store ∨
    (∃ status body, o = .response status body ∧
      ((List.lookup (artifact_paths sha256 root item none).1 st.store.raw = none ∧
        List.lookup (artifact_paths sha256 root item none).2 st.store.meta = none ∧
        (acquireStep sha256 urlPath root disallow o s st item).1.store =
          write_raw_and_meta sha256 st.store
            (artifact_paths sha256 root item none).1
            (artifact_paths sha256 root item none).2 status body) ∨
       (acquireStep sha256 urlPath root disallow o s st item).1.store =
          write_raw_and_meta sha256 st.store
            (artifact_paths sha256 root item (some s)).1
            (artifact_paths sha256 root item (some s)).2 status body)) := by
  unfold acquireStep recordFailure
  dsimp only
  by_cases h1 : is_allowed_by_robots urlPath item.canonical_url disallow = true
  · rw [if_neg (not_not_intro h1)]
    by_cases h2 : (existing_checksum sha256 st.store
        (artifact_paths sha256 root item none).2
        (artifact_paths sha256 root item none).1).isSome = true
    · rw [if_pos h2]
      left
      rfl
    · rw [if_neg h2]
      cases o with
      | fetchError =>
        dsimp only
        left
        by_cases h3 : item.doc_type = "reference" <;> simp [h3]
      | response status body =>
        dsimp only
        by_cases h3 : status < 200 ∨ 300 ≤ status
        · rw [if_pos h3]
          left
          by_cases h4 : item.doc_type = "reference" <;> simp [h4]
        · rw [if_neg h3]
          by_cases h4 : (List.lookup (artifact_paths sha256 root item none).1
                st.store.raw).isSome = true ∨
              (List.lookup (artifact_paths sha256 root item none).2
                st.store.meta).isSome = true
          · rw [if_pos h4]
            exact Or.inr ⟨status, body, rfl, Or.inr rfl⟩
          · rw [if_neg h4]
            have h4a : ¬ (List.lookup (artifact_paths sha256 root item none).1
                st.store.raw).isSome = true := fun a => h4 (Or.inl a)
            have h4b : ¬ (List.lookup (artifact_paths sha256 root item none).2
                st.store.meta).isSome = true := fun a => h4 (Or.inr a)
            refine Or.inr ⟨status, body, rfl, Or.inl ⟨?_, ?_, rfl⟩⟩
            · cases hh : List.lookup (artifact_paths sha256 root item none).1 st.store.raw with
              | none => rfl
              | some v => exact absurd (by rw [hh]; rfl) h4a
            · cases hh : List.lookup (artifact_paths sha256 root item none).2 st.store.meta with
              | none => rfl
              | some v => exact absurd (by rw [hh]; rfl) h4b
  · rw [if_pos h1]
    left
    by_cases h3 : item.doc_type = "reference" <;> simp [h3]

/-- **C10**: acquisition never overwrites an existing artifact or metadata
file: processing any single item from any state leaves the content at every
previously stored raw/meta path unchanged, provided the timestamp-suffixed
paths for the item are fresh (they carry the current UTC second); and in the
collision case — a successful fetch whose computed base raw or meta path
already exists and which was not skipped — the new artifact and sidecar are
written under the fresh timestamp-suffixed filenames. -/
theorem acquisition_never_overwrites (sha256 : List Nat → String)
    (urlPath : String → String) (root : String) (disallow : List String)
    (o : FetchOutcome) (s : String) (st : AcqState) (item : Item)
    (hfr : List.lookup (artifact_paths sha256 root item (some s)).1 st.store.raw = none)
    (hfm : List.lookup (artifact_paths sha256 root item (some s)).2 st.store.meta = none) :
    (∀ p b, List.lookup p st.store.raw = some b →
      List.lookup p (acquireStep sha256 urlPath root disallow o s st item).1.store.raw =
        some b) ∧
    (∀ p m, List.lookup p st.store.meta = some m →
      List.lookup p (acquireStep sha256 urlPath root disallow o s st item).1.store.meta =
        some m) ∧
    (∀ status body, o = .response status body →
      is_allowed_by_robots urlPath item.canonical_url disallow = true →
      (existing_checksum sha256 st.store (artifact_paths sha256 root item none).2
          (artifact_paths sha256 root item none).1).isSome = false →
      ¬ (status < 200 ∨ 300 ≤ status) →
      ((List.lookup (artifact_paths sha256 root item none).1 st.store.raw).isSome ∨
        (List.lookup (artifact_paths sha256 root item none).2 st.store.meta).isSome) →
      List.lookup (artifact_paths sha256 root item (some s)).1
          (acquireStep sha256 urlPath root disallow o s st item).1.store.raw = some body ∧
      List.lookup (artifact_paths sha256 root item (some s)).2
          (acquireStep sha256 urlPath root disallow o s st item).1.store.meta =
        some { checksum := sha256 body, http_status := status }) := by
  rcases acquireStep_store_shape sha256 urlPath root disallow o s st item with
    hsame | ⟨status, body, ho, hcase⟩
  · refine ⟨?_, ?_, ?_⟩
    · intro p b hp
      rw [hsame]
      exact hp
    · intro p m hp
      rw [hsame]
      exact hp
    · intro status body ho hrob hskip hst hcol
      exfalso
      subst ho
      revert hsame
      unfold acquireStep recordFailure write_raw_and_meta
      dsimp only
      rw [if_neg (not_not_intro hrob), if_neg (by simp [hskip]), if_neg hst,
        if_pos (by simpa using hcol)]
      intro hsame
      have := congrArg Store.raw hsame
      simp at this
  · refine ⟨?_, ?_, ?_⟩
    · intro p b hp
      rcases hcase with ⟨hr, _, hw⟩ | hw <;> rw [hw] <;>
        exact lookup_cons_preserve _ _ _ _ _ hp (by assumption)
    · intro p m hp
      rcases hcase with ⟨_, hm, hw⟩ | hw <;> rw [hw] <;>
        exact lookup_cons_preserve _ _ _ _ _ hp (by assumption)
    · intro status' body' ho' hrob hskip hst hcol
      subst ho'
      unfold acquireStep recordFailure write_raw_and_meta
      dsimp only
      rw [if_neg (not_not_intro hrob), if_neg (by simp [hskip]), if_neg hst,
        if_pos (by simpa using hcol)]
      constructor <;> simp [List.lookup]

/-- Witness for C10 at a concrete input: re-fetching an item whose stored
artifact is corrupted (checksum mismatch, so no skip) leaves the stale files
untouched and writes the new artifact under the fresh suffixed path. -/
theorem acquisition_never_overwrites_witness :
    (∀ p b, List.lookup p (initAcqState wStaleStore).store.raw = some b →
      List.lookup p (acquireStep wSha wPath "out" [] (.response 200 [1]) "T"
        (initAcqState wStaleStore) wSkipItem).1.store.raw = some b) ∧
    (∀ p m, List.lookup p (initAcqState wStaleStore).store.meta = some m →
      List.lookup p (acquireStep wSha wPath "out" [] (.response 200 [1]) "T"
        (initAcqState wStaleStore) wSkipItem).1.store.meta = some m) ∧
    (∀ status body, FetchOutcome.response 200 [1] = .response status body →
      is_allowed_by_robots wPath wSkipItem.canonical_url [] = true →
      (existing_checksum wSha (initAcqState wStaleStore).store
          (artifact_paths wSha "out" wSkipItem none).2
          (artifact_paths wSha "out" wSkipItem none).1).isSome = false →
      ¬ (status < 200 ∨ 300 ≤ status) →
      ((List.lookup (artifact_paths wSha "out" wSkipItem none).1
          (initAcqState wStaleStore).store.raw).isSome ∨
        (List.lookup (artifact_paths wSha "out" wSkipItem none).2
          (initAcqState wStaleStore).store.meta).isSome) →
      List.lookup (artifact_paths wSha "out" wSkipItem (some "T")).1
          (acquireStep wSha wPath "out" [] (.response 200 [1]) "T"
            (initAcqState wStaleStore) wSkipItem).1.store.raw = some body ∧
      List.lookup (artifact_paths wSha "out" wSkipItem (some "T")).2
          (acquireStep wSha wPath "out" [] (.response 200 [1]) "T"
            (initAcqState wStaleStore) wSkipItem).1.store.meta =
        some { checksum := wSha body, http_status := status }) :=
  acquisition_never_overwrites wSha wPath "out" [] (.response 200 [1]) "T"
    (initAcqState wStaleStore) wSkipItem (by decide) (by decide)

end PineIngest
